import Mathlib

set_option maxHeartbeats 1000000

namespace TreeSitter

/-! Shallow embedding of the core GLR parser driver in src/runtime/parser.c
and the slab tree pool appended to it (src/runtime/tree_pool.h).  Machine
integers are modelled as Nat, with an explicit mod 2^32 wherever the C
computation can wrap.  Data types from headers that are not among the
sources (runtime/tree.h is, runtime/stack.h is; tree.c, stack.c, lexer.c,
reusable_node.h and error_costs.h are not) are modelled from the spec where
a claim depends on them; each such definition says so in its doc comment. -/

def U32 : Nat := 4294967296

def UINT_MAX : Nat := 4294967295

/-- Constant from parser.c line 36. -/
def MAX_VERSION_COUNT : Nat := 6

/-- Constant from parser.c line 37. -/
def MAX_SUMMARY_DEPTH : Nat := 16

/-- Modelled from the spec: ERROR_STATE is the designated recovery state of
the parse table (its definition lives in runtime/parse_table definitions
that are not among the sources); only its distinguishedness matters here. -/
def ERROR_STATE : Nat := 65535

/-- Modelled from the spec: the builtin error symbol (from headers not among
the sources); only its distinguishedness matters here. -/
def ts_builtin_sym_error : Nat := 65534

/-- Modelled from the spec: the builtin end-of-input symbol. -/
def ts_builtin_sym_end : Nat := 0

/-- Lex mode of a parse state, from runtime/lexer data carried in the
language table (TSLexMode in the headers). -/
structure TSLexMode where
  lex_state : Nat := 0
  external_lex_state : Nat := 0
  deriving DecidableEq, Repr

/-- Scalar fields of the Tree struct of runtime/tree.h (src/unnamed/part_000
lines 170-213), with Length collapsed to its bytes field: the claims under
verification only mention bytes.  The child array is split off into the
inductive below because Lean structures cannot be recursive. -/
structure TreeData where
  symbol : Nat := 0
  padding_bytes : Nat := 0
  size_bytes : Nat := 0
  error_cost : Nat := 0
  dynamic_precedence : Int := 0
  parse_state : Nat := 0
  bytes_scanned : Nat := 0
  ref_count : Nat := 1
  extra : Bool := false
  visible : Bool := true
  named : Bool := false
  fragile_left : Bool := false
  fragile_right : Bool := false
  has_changes : Bool := false
  has_external_tokens : Bool := false
  first_leaf_symbol : Nat := 0
  first_leaf_lex_state : Nat := 0
  first_leaf_external_lex_state : Nat := 0
  first_error_character : Int := 0
  ext_state : Option Nat := none
  deriving DecidableEq, Repr

/-- A subtree: scalar fields plus children. -/
inductive Tree where
  | mk (data : TreeData) (children : List Tree)

def Tree.data : Tree → TreeData
  | .mk d _ => d

def Tree.children : Tree → List Tree
  | .mk _ c => c

def Tree.child_count (t : Tree) : Nat := t.children.length

/-- ts_tree_total_bytes from runtime/tree.h (padding.bytes + size.bytes). -/
def ts_tree_total_bytes (t : Tree) : Nat :=
  t.data.padding_bytes + t.data.size_bytes

/-- Sum of total byte extents of a list of trees. -/
def sum_total (ts : List Tree) : Nat :=
  ts.foldr (fun t a => ts_tree_total_bytes t + a) 0

/-- ts_tree_retain from tree.c (not among the sources): bumps the strong
reference count.  In this value-level embedding the bump is recorded on the
returned tree value. -/
def ts_tree_retain (t : Tree) : Tree :=
  .mk { t.data with ref_count := t.data.ref_count + 1 } t.children

mutual

/-- Modelled from the spec: ts_tree_compare of tree.c is not among the
sources; spec 4.B describes it as the total order comparing symbols, then
child_count, then each child recursively, returning -1/0/1. -/
def ts_tree_compare : Tree → Tree → Int
  | .mk da ca, .mk db cb =>
    if da.symbol < db.symbol then -1
    else if db.symbol < da.symbol then 1
    else if ca.length < cb.length then -1
    else if cb.length < ca.length then 1
    else ts_tree_compare_children ca cb

/-- Child-by-child recursion of ts_tree_compare; the lists have equal
length when reached. -/
def ts_tree_compare_children : List Tree → List Tree → Int
  | [], _ => 0
  | _, [] => 0
  | a :: as_, b :: bs =>
    let c := ts_tree_compare a b
    if c = 0 then ts_tree_compare_children as_ bs else c

end

/-- parser__select_tree, parser.c lines 543-591.  NULL pointers are modelled
as none.  Returns true when the right tree is selected over the left. -/
def parser__select_tree (left right : Option Tree) : Bool :=
  match left, right with
  | none, _ => true
  | some _, none => false
  | some l, some r =>
    if r.data.error_cost < l.data.error_cost then true
    else if l.data.error_cost < r.data.error_cost then false
    else if r.data.dynamic_precedence > l.data.dynamic_precedence then true
    else if l.data.dynamic_precedence > r.data.dynamic_precedence then false
    else if l.data.error_cost > 0 then true
    else
      let comparison := ts_tree_compare l r
      if comparison = -1 then false
      else if comparison = 1 then true
      else false

/-- Spec-side restatement of the selection rule as amended for claim C2:
smaller error cost wins, then larger dynamic precedence, and on a full tie
the right tree is taken whenever the shared error cost is positive,
otherwise the structural compare decides with the left (existing) tree kept
on equality. -/
def select_tree_spec (l r : Tree) : Bool :=
  if l.data.error_cost ≠ r.data.error_cost then
    decide (r.data.error_cost < l.data.error_cost)
  else if l.data.dynamic_precedence ≠ r.data.dynamic_precedence then
    decide (r.data.dynamic_precedence > l.data.dynamic_precedence)
  else if l.data.error_cost > 0 then true
  else decide (ts_tree_compare l r = 1)

/-- ErrorStatus, parser.c lines 40-44. -/
structure ErrorStatus where
  cost : Nat
  push_count : Nat
  is_in_error : Bool
  deriving DecidableEq, Repr

/-- ErrorComparison, parser.c lines 46-52 (NoneCmp stands for
ErrorComparisonNone). -/
inductive ErrorComparison where
  | TakeLeft
  | PreferLeft
  | NoneCmp
  | PreferRight
  | TakeRight
  deriving DecidableEq, Repr

/-- parser__compare_versions, parser.c lines 137-171.  The parameter mcd is
MAX_COST_DIFFERENCE = 16 * ERROR_COST_PER_SKIPPED_TREE (line 38); the
per-skipped-tree weight comes from runtime/error_costs.h, which is not
among the sources, so it is kept as a parameter.  The unsigned difference
cannot wrap (it is guarded by the strict comparison); the product is
reduced mod 2^32 as the C unsigned multiplication is. -/
def parser__compare_versions (mcd : Nat) (a b : ErrorStatus) : ErrorComparison :=
  if !a.is_in_error && b.is_in_error then
    if a.cost < b.cost then .TakeLeft else .PreferLeft
  else if a.is_in_error && !b.is_in_error then
    if b.cost < a.cost then .TakeRight else .PreferRight
  else if a.cost < b.cost then
    if ((b.cost - a.cost) * (1 + a.push_count)) % U32 > mcd then .TakeLeft
    else .PreferLeft
  else if b.cost < a.cost then
    if ((a.cost - b.cost) * (1 + b.push_count)) % U32 > mcd then .TakeRight
    else .PreferRight
  else .NoneCmp

/-- Spec-side restatement of claim C6: when exactly one version is in
error the non-error version wins (Take on a strict cost win, else Prefer);
with equal error status the strictly cheaper version wins, Take when the
weighted cost difference exceeds MAX_COST_DIFFERENCE, else Prefer; None
when the costs are equal. -/
def compare_versions_spec (mcd : Nat) (a b : ErrorStatus) : ErrorComparison :=
  if a.is_in_error ≠ b.is_in_error then
    if a.is_in_error then
      if b.cost < a.cost then .TakeRight else .PreferRight
    else
      if a.cost < b.cost then .TakeLeft else .PreferLeft
  else if a.cost = b.cost then .NoneCmp
  else if a.cost < b.cost then
    if ((b.cost - a.cost) * (1 + a.push_count)) % U32 > mcd then .TakeLeft
    else .PreferLeft
  else
    if ((a.cost - b.cost) * (1 + b.push_count)) % U32 > mcd then .TakeRight
    else .PreferRight

/-- Modelled from the spec: a stack head node (stack.c is not among the
sources).  Per spec 4.G a node carries the parse state; the error cost is
derived from the spine hanging off the node, so two versions sharing a head
node agree on state and cost. -/
structure StackNode where
  state : Nat
  error_cost : Nat
  id : Nat
  deriving DecidableEq, Repr

/-- Modelled from the spec: a stack version: a head-node pointer plus the
per-version push count and halted flag (spec 4.G). -/
structure StackHead where
  node : StackNode
  push_count : Nat
  is_halted : Bool
  deriving DecidableEq, Repr

/-- Modelled from the spec: ts_stack_can_merge tests that two versions
share the same head node (spec 4.G). -/
def ts_stack_can_merge (a b : StackHead) : Bool :=
  a.node == b.node

/-- ErrorStatus of a live version, as built at parser.c lines 210-214. -/
def version_status (v : StackHead) : ErrorStatus :=
  { cost := v.node.error_cost
    push_count := v.push_count
    is_in_error := v.node.state == ERROR_STATE }

/-- Inner j-loop of parser__condense_stack (parser.c lines 218-267) in
functional form: the already-processed versions (indices below i) are the
first argument, scanned left to right against the version v under
examination.  TakeLeft drops v; PreferLeft and None drop v when the
versions can merge; PreferRight removes j when mergeable and otherwise
swaps v into j's slot, moving the old occupant to the end and ending the
scan; TakeRight removes j and continues. -/
def condense_insert (mcd : Nat) : List StackHead → StackHead → List StackHead
  | [], v => [v]
  | j :: rest, v =>
    match parser__compare_versions mcd (version_status j) (version_status v),
          ts_stack_can_merge j v with
    | .TakeLeft, _ => j :: rest
    | .PreferLeft, true => j :: rest
    | .PreferLeft, false => j :: condense_insert mcd rest v
    | .NoneCmp, true => j :: rest
    | .NoneCmp, false => j :: condense_insert mcd rest v
    | .PreferRight, true => condense_insert mcd rest v
    | .PreferRight, false => v :: (rest ++ [j])
    | .TakeRight, _ => condense_insert mcd rest v

/-- Outer i-loop of parser__condense_stack (parser.c lines 203-268):
halted versions are removed on sight; each live version first contributes
to the all-in-error flag and the minimum error cost, then runs the j-loop
against the versions before it. -/
def condense_pass (mcd : Nat) :
    List StackHead → Bool → Nat → List StackHead → List StackHead × Bool × Nat
  | acc, all_err, min_cost, [] => (acc, all_err, min_cost)
  | acc, all_err, min_cost, v :: pending =>
    if v.is_halted then condense_pass mcd acc all_err min_cost pending
    else
      let st := version_status v
      condense_pass mcd (condense_insert mcd acc v)
        (all_err && st.is_in_error)
        (if st.cost < min_cost then st.cost else min_cost)
        pending

/-- parser__condense_stack, parser.c lines 199-283: run the pairwise pass,
truncate to MAX_VERSION_COUNT, and return the remaining versions together
with the should-halt flag of lines 280-282.  finished_error_cost is the
error cost of self->finished_tree when that pointer is non-NULL. -/
def parser__condense_stack (mcd : Nat) (versions : List StackHead)
    (finished_error_cost : Option Nat) : List StackHead × Bool :=
  match condense_pass mcd [] true UINT_MAX versions with
  | (remaining0, all_err, min_cost) =>
    let remaining := remaining0.take MAX_VERSION_COUNT
    let halt :=
      (all_err && decide (0 < remaining.length)) ||
      (match finished_error_cost with
       | some c => decide (c < min_cost)
       | none => false)
    (remaining, halt)

/-- Versions that are live (not halted) when condense starts. -/
def entry_live (versions : List StackHead) : List StackHead :=
  versions.filter (fun v => !v.is_halted)

/-! Slab tree pool, appended to parser.c (lines 1178-1263) with its header
src/runtime/tree_pool.h.  A slab is modelled by its occupancy bitmap; the
Tree slots themselves carry no data relevant to the claims. -/

/-- SLAB_SIZE, tree pool line 1182. -/
def SLAB_SIZE : Nat := 64

/-- FULL_BITMAP = UINT64_MAX, tree pool line 1184. -/
def FULL_BITMAP : Nat := 18446744073709551615

/-- The mask of tree_pool_slab__allocate line 1197: the C writes
BITMAP_TYPE mask = 1 << i, shifting the 32-bit int literal 1 before
widening to uint64_t, so the shift wraps modulo 2^32 and the mask is 0 for
every slot index i at or above 32. -/
def slab_mask (i : Nat) : Nat := (2 ^ i) % U32

/-- tree_pool_slab__is_full, lines 1191-1193. -/
def tree_pool_slab__is_full (bitmap : Nat) : Bool :=
  bitmap == FULL_BITMAP

/-- tree_pool_slab__allocate, lines 1195-1204: scan slots 0..63 for the
first whose mask-bit is clear in the bitmap, set that bit and return the
slot index together with the updated bitmap; none when the scan finds no
clear mask-bit. -/
def tree_pool_slab__allocate (bitmap : Nat) : Option (Nat × Nat) :=
  (List.range SLAB_SIZE).findSome? fun i =>
    if bitmap &&& slab_mask i == 0 then some (bitmap ||| slab_mask i, i)
    else none

/-- The complement mask of tree_pool_slab__free line 1209: the C computes
the bitwise not of 1 << index on 32-bit int and then widens to uint64_t,
sign-extending bit 31. -/
def slab_free_mask (index : Nat) : Nat :=
  let inv32 := (U32 - 1) - slab_mask index
  if 2 ^ 31 ≤ inv32 then (2 ^ 64 - U32) + inv32 else inv32

/-- tree_pool_slab__free, lines 1206-1211, reduced to the bitmap update
(the bounds check on the pointer difference is the caller's slab search). -/
def tree_pool_slab__free (bitmap : Nat) (index : Nat) : Nat :=
  bitmap &&& slab_free_mask index

/-- TreePool from src/runtime/tree_pool.h lines 9-13, with each slab
reduced to its bitmap and the unrelated tree_stack omitted. -/
structure TreePool where
  slabs : List Nat
  first_available_slab_index : Nat
  deriving DecidableEq, Repr

/-- Cursor advance of ts_tree_pool_allocate lines 1241-1249: after the
current slab fills, move first_available_slab_index to the next non-full
slab, appending a fresh empty slab (ts_tree_pool__add_slab, lines
1213-1219) when none has room. -/
def tree_pool_advance (slabs : List Nat) (i : Nat) : TreePool :=
  match ((List.range' (i + 1) (slabs.length - (i + 1))).find? fun j =>
      !tree_pool_slab__is_full ((slabs.get? j).getD FULL_BITMAP)) with
  | some j => { slabs := slabs, first_available_slab_index := j }
  | none => { slabs := slabs ++ [0], first_available_slab_index := slabs.length }

/-- ts_tree_pool_allocate, lines 1238-1252: allocate from the slab at
first_available_slab_index; result is (slab index, slot index).  The C
indexes the slab array unconditionally; an out-of-range index yields
none here. -/
def ts_tree_pool_allocate (p : TreePool) : TreePool × Option (Nat × Nat) :=
  match p.slabs.get? p.first_available_slab_index with
  | none => (p, none)
  | some bm =>
    match tree_pool_slab__allocate bm with
    | none => (p, none)
    | some (bm2, slot) =>
      let slabs := p.slabs.set p.first_available_slab_index bm2
      if tree_pool_slab__is_full bm2 then
        (tree_pool_advance slabs p.first_available_slab_index,
         some (p.first_available_slab_index, slot))
      else
        ({ slabs := slabs,
           first_available_slab_index := p.first_available_slab_index },
         some (p.first_available_slab_index, slot))

/-! Copy-on-write in parser__shift (claim C9).  Trees live in a store
indexed by identity so that in-place mutation is observable. -/

/-- Scalar view of a stored tree for the shift model. -/
structure ShiftTreeData where
  extra : Bool := false
  ref_count : Nat := 1
  child_count : Nat := 0
  has_external_tokens : Bool := false
  deriving DecidableEq, Repr

/-- Identity-indexed tree heap. -/
def TreeStore : Type := Nat → ShiftTreeData

/-- Point update of a tree store. -/
def store_set (s : TreeStore) (i : Nat) (d : ShiftTreeData) : TreeStore :=
  fun j => if j = i then d else s j

/-- ts_tree_retain on the store: ref_count increment in place. -/
def ts_tree_retain_at (s : TreeStore) (i : Nat) : TreeStore :=
  store_set s i { s i with ref_count := (s i).ref_count + 1 }

/-- ts_tree_make_copy on the store (tree.c is not among the sources; spec
4.B: shallow copy with ref_count 1, children retained): the copy is placed
at the fresh identity new_id. -/
def ts_tree_make_copy_at (s : TreeStore) (i new_id : Nat) : TreeStore :=
  store_set s new_id { s i with ref_count := 1 }

/-- Result of the shift model: the updated store and the identity of the
tree that was pushed onto the stack. -/
structure ShiftResult where
  store : TreeStore
  pushed : Nat

/-- Outcome of one call to the external scanner (spec 4.E / 6; the scanner
itself is an opaque callback).  token_end and current_end are the lexer's
token_end_position.bytes and current_position.bytes after the call;
end_unknown models length_has_unknown_chars on the token end (the scanner
never called mark_end), in which case parser.c lines 331-333 substitute the
current position. -/
structure ExtScanSuccess where
  token_end : Nat
  current_end : Nat
  end_unknown : Bool := false
  result_symbol : Nat := 0
  serialized : Nat := 0
  deriving DecidableEq, Repr

/-- Result of one external scan: success with the data above, or failure
with the lexer's current position after the call (the scanner may have
advanced before returning false). -/
inductive ExtScanOutcome where
  | success (r : ExtScanSuccess)
  | failure (current_end : Nat)
  deriving DecidableEq, Repr

/-- Outcome of one call to the internal lex function with success data:
token_start/token_end/current position after the call, the
length-has-unknown-chars flag on the token end, and result_symbol. -/
structure IntLexSuccess where
  token_start : Nat
  token_end : Nat
  current_end : Nat
  end_unknown : Bool := false
  result_symbol : Nat := 0
  deriving DecidableEq, Repr

/-- Result of one internal lex call: success, or failure with the lexer's
token_start_position and current_position after the failed call. -/
inductive IntLexOutcome where
  | success (r : IntLexSuccess)
  | failure (token_start : Nat) (current_end : Nat)
  deriving DecidableEq, Repr

/-- Opaque collaborators of the parser driver: the language table accessors
and the lexer callbacks (spec 4.E/4.F; language.c and lexer.c are not among
the sources).  Byte positions index the input; lookahead_char 0 means end
of input; advance_pos is the position one codepoint further; breakdown_state
abstracts ts_stack_top_state after parser__breakdown_top_of_stack. -/
structure Env where
  lex_modes : Nat → TSLexMode
  enabled_external : Nat → Bool
  ext_scan : Nat → Nat → Option Nat → ExtScanOutcome
  int_lex : Nat → Nat → IntLexOutcome
  lookahead_char : Nat → Int
  advance_pos : Nat → Nat
  symbol_map : Nat → Nat
  table_is_reusable : Nat → Nat → Bool
  table_depends_on_lookahead : Nat → Nat → Bool
  breakdown_state : Nat → Nat

/-- Mutable state of the parser__lex loop (locals of lines 297-312
together with the lexer's current position, bytes only). -/
structure LexLoopState where
  lex_mode : TSLexMode
  error_mode : Bool
  skipped_error : Bool := false
  first_error_character : Int := 0
  error_start : Nat := 0
  error_end : Nat := 0
  last_byte_scanned : Nat
  current : Nat
  deriving DecidableEq, Repr

/-- How the parser__lex loop terminated: an external token committed at
lines 338-339, an internal token at line 360, or the end-of-input error
break at lines 387-389. -/
inductive LexBreak where
  | external (token_start token_end : Nat) (r : ExtScanSuccess)
  | internal (r : IntLexSuccess)
  | errorLeaf
  deriving DecidableEq, Repr

/-- Record the furthest byte the lexer touched (the last_byte_scanned
updates of lines 343-345, 371-373 and 422-424). -/
def lex_update_lbs (s : LexLoopState) (pos : Nat) : LexLoopState :=
  if pos > s.last_byte_scanned then { s with last_byte_scanned := pos } else s

/-- One iteration of the parser__lex main loop (parser.c lines 314-395).
Returns the continuing state or the final state with the break kind.
The external phase (317-347) runs when external tokens are enabled for the
current lex mode: on success the token end falls back to the current
position when unknown, and the token is committed unless the parser is in
error mode and the scanner consumed no bytes (line 335), in which case it
is disregarded and the lexer resets; on failure the lexer likewise resets
to the iteration entry position.  Then the internal lex function runs
(349-361); on its failure the loop either switches to error mode and
restarts from the start position (363-376) or accumulates the skipped
error range one codepoint at a time (378-394), breaking with the builtin
error symbol at end of input. -/
def parser__lex_step (env : Env) (last_external : Option Nat)
    (start_position : Nat) (s : LexLoopState) :
    LexLoopState ⊕ (LexLoopState × LexBreak) :=
  let cp := s.current
  let afterExternal : Option (LexLoopState × LexBreak) × LexLoopState :=
    if env.enabled_external s.lex_mode.external_lex_state then
      match env.ext_scan s.lex_mode.external_lex_state cp last_external with
      | .success r =>
        let te := if r.end_unknown then r.current_end else r.token_end
        if s.error_mode && te ≤ cp then
          (none, { lex_update_lbs s r.current_end with current := cp })
        else
          (some ({ s with current := r.current_end }, .external cp te r), s)
      | .failure ce =>
        (none, { lex_update_lbs s ce with current := cp })
    else (none, s)
  match afterExternal with
  | (some out, _) => Sum.inr out
  | (none, s) =>
    match env.int_lex s.lex_mode.lex_state s.current with
    | .success r =>
      let te := if r.end_unknown then r.current_end else r.token_end
      Sum.inr ({ s with current := r.current_end }, .internal { r with token_end := te })
    | .failure token_start current_end =>
      let s := { s with current := current_end }
      if !s.error_mode then
        Sum.inl { lex_update_lbs s s.current with
                  error_mode := true
                  lex_mode := env.lex_modes ERROR_STATE
                  current := start_position }
      else
        let s :=
          if !s.skipped_error then
            { s with skipped_error := true
                     error_start := token_start
                     error_end := token_start
                     first_error_character := env.lookahead_char s.current }
          else s
        if s.current == s.error_end then
          if env.lookahead_char s.current == 0 then
            Sum.inr (s, .errorLeaf)
          else
            let s := { s with current := env.advance_pos s.current }
            Sum.inl { s with error_end := s.current }
        else
          Sum.inl { s with error_end := s.current }

/-- The parser__lex loop, fuelled; none models non-termination within the
given fuel (the C loop is unbounded). -/
def parser__lex_loop (env : Env) (last_external : Option Nat)
    (start_position : Nat) : Nat → LexLoopState → Option (LexLoopState × LexBreak)
  | 0, _ => none
  | fuel + 1, s =>
    match parser__lex_step env last_external start_position s with
    | Sum.inl s2 => parser__lex_loop env last_external start_position fuel s2
    | Sum.inr out => some out

/-- Result assembly of parser__lex, parser.c lines 397-430: an error leaf
covering the skipped range when characters were skipped, otherwise a leaf
for the lexed token, carrying the external-token data when the external
scanner produced it (symbol mapped through symbol_map, has_external_tokens
set, the serialized scanner state attached); finally bytes_scanned,
parse_state and first_leaf.lex_mode are filled in. -/
def parser__lex_result (env : Env) (start_position parse_state : Nat)
    (s : LexLoopState) (brk : LexBreak) : Tree :=
  let base : TreeData :=
    if s.skipped_error then
      { symbol := ts_builtin_sym_error
        padding_bytes := s.error_start - start_position
        size_bytes := s.error_end - s.error_start
        first_error_character := s.first_error_character
        first_leaf_symbol := ts_builtin_sym_error }
    else
      match brk with
      | .external token_start token_end r =>
        { symbol := env.symbol_map r.result_symbol
          padding_bytes := token_start - start_position
          size_bytes := token_end - token_start
          has_external_tokens := true
          ext_state := some r.serialized
          first_leaf_symbol := env.symbol_map r.result_symbol }
      | .internal r =>
        { symbol := r.result_symbol
          padding_bytes := r.token_start - start_position
          size_bytes := r.token_end - r.token_start
          first_leaf_symbol := r.result_symbol }
      | .errorLeaf =>
        { symbol := ts_builtin_sym_error
          first_leaf_symbol := ts_builtin_sym_error }
  let lbs := if s.current > s.last_byte_scanned then s.current else s.last_byte_scanned
  Tree.mk
    { base with
      bytes_scanned := lbs - start_position + 1
      parse_state := parse_state
      first_leaf_lex_state := s.lex_mode.lex_state
      first_leaf_external_lex_state := s.lex_mode.external_lex_state } []

/-- parser__lex, parser.c lines 297-431, fuelled. -/
def parser__lex (env : Env) (fuel : Nat) (start_position parse_state : Nat)
    (last_external : Option Nat) : Option Tree :=
  let lex_mode := env.lex_modes parse_state
  let s0 : LexLoopState :=
    { lex_mode := lex_mode
      error_mode := parse_state == ERROR_STATE
      last_byte_scanned := start_position
      current := start_position }
  match parser__lex_loop env last_external start_position fuel s0 with
  | none => none
  | some (s, brk) => some (parser__lex_result env start_position parse_state s brk)

/-- Modelled from the spec: one frame of the reusable-node cursor
(reusable_node.h is not among the sources; spec 4.C).  trees holds the
current node first, then its following siblings; byte is the byte index of
the current node. -/
structure RNFrame where
  trees : List Tree
  byte : Nat

/-- Modelled from the spec: the reusable-node cursor: a pointer into the
previous tree (as a stack of sibling frames, innermost first) plus the
last external-token state seen before the current position (spec 4.C). -/
structure ReusableNode where
  frames : List RNFrame
  last_external : Option Nat

/-- Current node of the cursor (reusable_node->tree; none models NULL). -/
def ReusableNode.tree? (rn : ReusableNode) : Option Tree :=
  match rn.frames with
  | ⟨t :: _, _⟩ :: _ => some t
  | _ => none

/-- Byte index of the cursor's current node (reusable_node->byte_index). -/
def ReusableNode.byte_index (rn : ReusableNode) : Nat :=
  match rn.frames with
  | ⟨_, b⟩ :: _ => b
  | _ => 0

mutual

/-- Modelled from the spec: rightmost external-token state inside a tree
(ts_tree_last_external_token of tree.c, reduced to the serialized blob). -/
def ts_tree_last_external_state : Tree → Option Nat
  | .mk d cs =>
    if d.has_external_tokens then
      match ts_tree_last_external_state_list cs with
      | some s => some s
      | none => d.ext_state
    else none

/-- Rightmost external-token state among a list of children. -/
def ts_tree_last_external_state_list : List Tree → Option Nat
  | [] => none
  | t :: ts =>
    match ts_tree_last_external_state_list ts with
    | some s => some s
    | none =>
      if t.data.has_external_tokens then ts_tree_last_external_state t else none

end

/-- Modelled from the spec: advance the frame stack past the current node
to its next sibling, unwinding to the next unvisited ancestor sibling when
the siblings are exhausted (spec 4.C advance / pop). -/
def rn_pop_frames : List RNFrame → List RNFrame
  | [] => []
  | ⟨[], _⟩ :: up => rn_pop_frames up
  | ⟨t :: rest, b⟩ :: up =>
    match rest with
    | [] => rn_pop_frames up
    | _ => ⟨rest, b + ts_tree_total_bytes t⟩ :: up

/-- Modelled from the spec: reusable_node_pop: skip the whole current
subtree, updating the recorded external-token state when the skipped
subtree contains external tokens. -/
def reusable_node_pop (rn : ReusableNode) : ReusableNode :=
  let le :=
    match rn.tree? with
    | some t => if t.data.has_external_tokens then ts_tree_last_external_state t
                else rn.last_external
    | none => rn.last_external
  { frames := rn_pop_frames rn.frames, last_external := le }

/-- Modelled from the spec: reusable_node_breakdown: descend to the first
child of the current node; fails (none) on a leaf. -/
def reusable_node_breakdown (rn : ReusableNode) : Option ReusableNode :=
  match rn.frames with
  | ⟨t :: rest, b⟩ :: up =>
    match t.children with
    | [] => none
    | c :: cs => some { rn with frames := ⟨c :: cs, b⟩ :: ⟨t :: rest, b⟩ :: up }
  | _ => none

/-- Modelled from the spec: descend along first children until the current
node is a leaf (the repeated-breakdown part of reusable_node_pop_leaf). -/
def rn_descend_first_leaf (fuel : Nat) (rn : ReusableNode) : ReusableNode :=
  match fuel with
  | 0 => rn
  | fuel + 1 =>
    match reusable_node_breakdown rn with
    | some rn2 => rn_descend_first_leaf fuel rn2
    | none => rn

mutual

/-- Height bound used as breakdown fuel. -/
def tree_height : Tree → Nat
  | .mk _ cs => 1 + tree_height_list cs

/-- Maximum height of a list of trees. -/
def tree_height_list : List Tree → Nat
  | [] => 0
  | t :: ts => Nat.max (tree_height t) (tree_height_list ts)

end

/-- Modelled from the spec: reusable_node_pop_leaf: skip the first leaf of
the current node and advance past it. -/
def reusable_node_pop_leaf (rn : ReusableNode) : ReusableNode :=
  match rn.tree? with
  | none => rn
  | some t => reusable_node_pop (rn_descend_first_leaf (tree_height t) rn)

/-- ts_tree_external_token_state_eq (tree.c is not among the sources; spec
4.B: compares the serialized blobs, both NULL equal), at the level of the
abstract blob identifiers used in this model. -/
def ts_tree_external_token_state_eq (a b : Option Nat) : Bool :=
  a == b

/-- parser__can_reuse_first_leaf, parser.c lines 456-466.  entry_reusable
and entry_depends are the is_reusable and depends_on_lookahead fields of
the table entry the caller looked up for (state, first leaf symbol). -/
def parser__can_reuse_first_leaf (env : Env) (state : Nat) (t : Tree)
    (entry_reusable entry_depends : Bool) : Bool :=
  let current_lex_mode := env.lex_modes state
  (t.data.first_leaf_lex_state == current_lex_mode.lex_state &&
   t.data.first_leaf_external_lex_state == current_lex_mode.external_lex_state) ||
  (current_lex_mode.external_lex_state == 0 &&
   decide (t.data.size_bytes > 0) &&
   entry_reusable &&
   (!entry_depends || (decide (t.child_count > 1) && t.data.error_cost == 0)))

/-- Outcome of one iteration of the reuse loop in parser__get_lookahead:
the current node is returned retained (lines 524-526), or the loop
continues with an updated cursor and possibly updated state, or the loop
exits to the token cache and lexer (the break statements at lines 477 and
521 and the loop condition at 474). -/
inductive LookaheadStep where
  | accept (t : Tree) (rn : ReusableNode) (state : Nat)
  | retry (rn : ReusableNode) (state : Nat)
  | fallthrough (rn : ReusableNode) (state : Nat)

/-- Discriminators for LookaheadStep. -/
def LookaheadStep.isRetryStep : LookaheadStep → Bool
  | .retry _ _ => true
  | _ => false

def LookaheadStep.isFallthroughStep : LookaheadStep → Bool
  | .fallthrough _ _ => true
  | _ => false

/-- One iteration of the while loop of parser__get_lookahead, parser.c
lines 474-527.  The cursor is consulted only when it has a node at the
current position with a matching external-token state; a node rejected for
has_changes / error / fragility / interior-during-ambiguity is broken down
when possible, and otherwise popped while the top of the stack is broken
down instead (lines 503-511); a node whose first leaf fails the reuse
check has that leaf popped and the loop exits (lines 514-522). -/
def parser__get_lookahead_step (env : Env) (in_ambiguity : Bool)
    (position : Nat) (last_external : Option Nat) (state : Nat)
    (rn : ReusableNode) : LookaheadStep :=
  match rn.tree? with
  | none => .fallthrough rn state
  | some result =>
    if rn.byte_index > position then .fallthrough rn state
    else if rn.byte_index < position then .retry (reusable_node_pop rn) state
    else if !ts_tree_external_token_state_eq rn.last_external last_external then
      .retry (reusable_node_pop rn) state
    else
      let rejected :=
        result.data.has_changes ||
        result.data.symbol == ts_builtin_sym_error ||
        result.data.fragile_left || result.data.fragile_right ||
        (in_ambiguity && result.child_count != 0)
      if rejected then
        match reusable_node_breakdown rn with
        | some rn2 => .retry rn2 state
        | none => .retry (reusable_node_pop rn) (env.breakdown_state state)
      else
        let er := env.table_is_reusable state result.data.first_leaf_symbol
        let ed := env.table_depends_on_lookahead state result.data.first_leaf_symbol
        if parser__can_reuse_first_leaf env state result er ed then
          .accept (ts_tree_retain result) rn state
        else
          .fallthrough (reusable_node_pop_leaf rn) state

/-- The reuse loop of parser__get_lookahead, fuelled.  Returns the reused
tree (some) or the exit to the cache and lexer (none), with the final
cursor and state. -/
def parser__get_lookahead_loop (env : Env) (in_ambiguity : Bool)
    (position : Nat) (last_external : Option Nat) :
    Nat → Nat → ReusableNode → Option (Option Tree × ReusableNode × Nat)
  | 0, _, _ => none
  | fuel + 1, state, rn =>
    match parser__get_lookahead_step env in_ambiguity position last_external state rn with
    | .accept t rn2 st => some (some t, rn2, st)
    | .retry rn2 st => parser__get_lookahead_loop env in_ambiguity position last_external fuel st rn2
    | .fallthrough rn2 st => some (none, rn2, st)

/-- TokenCache from the parser header (runtime/parser.h is not among the
sources; spec 4.D: a single slot of byte index, last external token state
and produced token). -/
structure TokenCache where
  token : Option Tree
  byte_index : Nat
  last_external : Option Nat

/-- parser__get_cached_token, parser.c lines 433-442. -/
def parser__get_cached_token (cache : TokenCache) (byte_index : Nat)
    (last_external : Option Nat) : Option Tree :=
  match cache.token with
  | some t =>
    if cache.byte_index == byte_index &&
       ts_tree_external_token_state_eq cache.last_external last_external then some t
    else none
  | none => none

/-- parser__set_cached_token, parser.c lines 444-454 (reference-count
traffic is omitted at this level). -/
def parser__set_cached_token (byte_index : Nat) (last_external : Option Nat)
    (token : Option Tree) : TokenCache :=
  { token := token, byte_index := byte_index, last_external := last_external }

/-- Where the lookahead tree of parser__get_lookahead came from: the
reusable-node cursor, the token cache, or a fresh run of the lexer. -/
inductive LookaheadSource where
  | reused
  | cached
  | lexed
  deriving DecidableEq, Repr

/-- Result of parser__get_lookahead: the lookahead tree, its provenance,
and the updated cursor, state and token cache. -/
structure GetLookaheadResult where
  tree : Tree
  source : LookaheadSource
  rn : ReusableNode
  state : Nat
  cache : TokenCache

/-- parser__get_lookahead, parser.c lines 468-541: try the reuse loop;
on fallthrough try the cached token, which is returned retained only when
its first leaf passes the reuse check (lines 529-535); otherwise run the
lexer and cache its token (lines 537-540). -/
def parser__get_lookahead (env : Env) (fuel : Nat) (in_ambiguity : Bool)
    (position : Nat) (last_external : Option Nat) (state : Nat)
    (rn : ReusableNode) (cache : TokenCache) : Option GetLookaheadResult :=
  match parser__get_lookahead_loop env in_ambiguity position last_external fuel state rn with
  | none => none
  | some (some t, rn2, st) =>
    some { tree := t, source := .reused, rn := rn2, state := st, cache := cache }
  | some (none, rn2, st) =>
    let lexPath : Option GetLookaheadResult :=
      match parser__lex env fuel position st last_external with
      | none => none
      | some t =>
        some { tree := t, source := .lexed, rn := rn2, state := st
               cache := parser__set_cached_token position last_external (some t) }
    match parser__get_cached_token cache position last_external with
    | some t =>
      let er := env.table_is_reusable st t.data.first_leaf_symbol
      let ed := env.table_depends_on_lookahead st t.data.first_leaf_symbol
      if parser__can_reuse_first_leaf env st t er ed then
        some { tree := ts_tree_retain t, source := .cached, rn := rn2, state := st, cache := cache }
      else lexPath
    | none => lexPath

/-- parser__shift, parser.c lines 593-614, at the level of the tree store:
when the requested extra flag differs from the lookahead's, the tree is
copied first only when the stack has more than one version (line 596);
otherwise it is retained and its extra flag is written in place.  The
stack push retains the pushed tree and the trailing release drops the
local reference, so the reference counts shown are the net effect. -/
def parser__shift (store : TreeStore) (version_count : Nat)
    (lookahead : Nat) (new_id : Nat) (extra : Bool) : ShiftResult :=
  if extra != (store lookahead).extra then
    if version_count > 1 then
      let s1 := ts_tree_make_copy_at store lookahead new_id
      let s2 := store_set s1 new_id { s1 new_id with extra := extra }
      { store := s2, pushed := new_id }
    else
      let s1 := ts_tree_retain_at store lookahead
      let s2 := store_set s1 lookahead { s1 lookahead with extra := extra }
      { store := s2, pushed := lookahead }
  else
    { store := ts_tree_retain_at store lookahead, pushed := lookahead }

/-! Acceptance and halting (claims C1): parser__accept (parser.c lines
725-772) and parser__halt_parse (lines 866-889) over a stack version
modelled as its spine of trees, bottom first.  The stack operations and
the tree constructors of tree.c / stack.c are not among the sources and
are modelled from the spec where marked. -/

/-- Set the extra flag of a tree value (lookahead->extra = true at line
727). -/
def set_tree_extra (t : Tree) (b : Bool) : Tree :=
  .mk { t.data with extra := b } t.children

/-- Modelled from the spec: ts_tree_set_children of tree.c aggregates the
children's extents per spec invariant 1: the node's padding is its first
child's padding and its size makes the total equal the children's total
(spec 4.B make_node); an empty child list leaves a zero extent. -/
def ts_tree_set_children (d : TreeData) (children : List Tree) : Tree :=
  match children with
  | [] => .mk { d with padding_bytes := 0, size_bytes := 0 } []
  | c :: rest =>
    .mk { d with
          padding_bytes := c.data.padding_bytes
          size_bytes := c.data.size_bytes + sum_total rest } (c :: rest)

/-- The backwards scan of parser__accept lines 741-752: split the popped
tree array at the last tree whose extra flag is clear; none when every
tree is extra. -/
def find_last_non_extra : List Tree → Option (List Tree × Tree × List Tree)
  | [] => none
  | t :: rest =>
    match find_last_non_extra rest with
    | some (before, c, after) => some (t :: before, c, after)
    | none => if t.data.extra then none else some ([], t, rest)

/-- Root construction of parser__accept, lines 736-754, for one popped
slice: a single tree becomes the root directly; otherwise the last
non-extra tree is copied, the copy's child list becomes the whole array
with that tree spliced out in favour of its children, and
ts_tree_set_children recomputes the extents.  none models the
assert-failing case of a slice with no non-extra tree. -/
def parser__accept_root (trees : List Tree) : Option Tree :=
  if trees.length == 1 then trees.head?
  else
    match find_last_non_extra trees with
    | none => none
    | some (before, c, after) =>
      some (ts_tree_set_children c.data (before ++ c.children ++ after))

/-- parser__accept for one stack version, lines 725-754: mark the
end-of-input lookahead extra, push it, pop the whole spine, and build the
root from the popped trees. -/
def parser__accept (spine : List Tree) (lookahead : Tree) : Option Tree :=
  parser__accept_root (spine ++ [set_tree_extra lookahead true])

/-- Modelled from the spec: ts_tree_make_leaf of tree.c at the byte level:
a childless tree with the given symbol, padding and size, first_leaf set
to the symbol itself. -/
def ts_tree_make_leaf (symbol padding size : Nat) : Tree :=
  .mk { symbol := symbol
        padding_bytes := padding
        size_bytes := size
        first_leaf_symbol := symbol } []

/-- Modelled from the spec: ts_tree_make_error of tree.c: an error leaf
with the given size and padding recording the first skipped character. -/
def ts_tree_make_error (size padding : Nat) (first_error_character : Int) : Tree :=
  .mk { symbol := ts_builtin_sym_error
        padding_bytes := padding
        size_bytes := size
        first_error_character := first_error_character
        first_leaf_symbol := ts_builtin_sym_error } []

/-- Modelled from the spec: ts_tree_make_error_node of tree.c: an interior
ERROR node over the given children, extents aggregated as in
ts_tree_set_children; its extra flag starts clear (parser__recover sets it
explicitly when needed, line 937). -/
def ts_tree_make_error_node (children : List Tree) : Tree :=
  ts_tree_set_children
    { symbol := ts_builtin_sym_error, first_leaf_symbol := ts_builtin_sym_error }
    children

/-- Modelled from the spec: ts_stack_top_position of stack.c: the position
at the top of a version is the total extent of the trees on its spine
(zero for an empty stack). -/
def ts_stack_top_position (spine : List Tree) : Nat :=
  sum_total spine

/-- parser__halt_parse, parser.c lines 866-889, acting on version 0 with
the given spine: the lexer advances to the end of the input
(input_length), the remaining bytes become an invisible error-leaf filler
pushed onto the stack, an empty ERROR node follows it, and a zero-width
end-of-input leaf is accepted. -/
def parser__halt_parse (spine : List Tree) (input_length : Nat) : Option Tree :=
  let remaining := input_length - ts_stack_top_position spine
  let filler0 := ts_tree_make_error remaining 0 0
  let filler := Tree.mk { filler0.data with visible := false } filler0.children
  let root_error := ts_tree_make_error_node []
  let eof := ts_tree_make_leaf ts_builtin_sym_end 0 0
  parser__accept (spine ++ [filler, root_error]) eof

/-! Concrete inputs used by the counterexamples and witnesses. -/

/-- A leaf with positive error cost, used to exercise the tie-breaking of
parser__select_tree against itself. -/
def tie_error_tree : Tree :=
  .mk { symbol := 5, error_cost := 1 } []

/-- Seven live versions: an error version of cost 5 first, five error
versions of cost 20, and one non-error version of cost 18 last.  The
pairwise pass swaps the non-error version into slot 0, pushing the cost-5
error version to slot 6, where the MAX_VERSION_COUNT truncation deletes it
even though its cost was the minimum recorded. -/
def condense_cex_versions : List StackHead :=
  [⟨⟨ERROR_STATE, 5, 0⟩, 0, false⟩,
   ⟨⟨ERROR_STATE, 20, 1⟩, 0, false⟩,
   ⟨⟨ERROR_STATE, 20, 2⟩, 0, false⟩,
   ⟨⟨ERROR_STATE, 20, 3⟩, 0, false⟩,
   ⟨⟨ERROR_STATE, 20, 4⟩, 0, false⟩,
   ⟨⟨ERROR_STATE, 20, 5⟩, 0, false⟩,
   ⟨⟨0, 18, 6⟩, 0, false⟩]

/-- Environment whose external scanner always succeeds without consuming
any bytes while the internal lex function fails in place. -/
def lex_cex_env : Env :=
  { lex_modes := fun _ => ⟨0, 0⟩
    enabled_external := fun _ => true
    ext_scan := fun _ pos _ => .success ⟨pos, pos, false, 3, 0⟩
    int_lex := fun _ pos => .failure pos pos
    lookahead_char := fun _ => 1
    advance_pos := fun p => p + 1
    symbol_map := fun s => s + 10
    table_is_reusable := fun _ _ => true
    table_depends_on_lookahead := fun _ _ => false
    breakdown_state := fun s => s }

/-- Loop state at the start of a non-error-mode lex from position 0. -/
def lex_wit_state : LexLoopState :=
  { lex_mode := ⟨0, 0⟩
    error_mode := false
    last_byte_scanned := 0
    current := 0 }

/-- A one-byte token at position 0 whose first leaf was lexed in lex mode
(0, 0). -/
def cache_cex_token : Tree :=
  .mk { symbol := 7, size_bytes := 1, first_leaf_symbol := 7 } []

/-- Token cache holding that token at byte index 0 with no external
state. -/
def cache_cex : TokenCache :=
  ⟨some cache_cex_token, 0, none⟩

/-- Environment whose lex mode (1, 1) disagrees with the cached token's
recorded lex mode (0, 0), and whose internal lex function succeeds with a
fresh one-byte token. -/
def lookahead_cex_env : Env :=
  { lex_cex_env with
    lex_modes := fun _ => ⟨1, 1⟩
    enabled_external := fun _ => false
    int_lex := fun _ pos => .success ⟨pos, pos + 1, pos + 1, false, 9⟩ }

/-- Reusable cursor positioned on that token at byte 0. -/
def reuse_cex_cursor : ReusableNode :=
  ⟨[⟨[cache_cex_token], 0⟩], none⟩

/-- Empty reusable cursor. -/
def empty_cursor : ReusableNode :=
  ⟨[], none⟩

/-- A store whose every slot holds a tree that is shared (ref_count 2) and
not extra. -/
def shift_cex_store : TreeStore :=
  fun _ => { extra := false, ref_count := 2 }

/-- A store whose every slot holds a tree with ref_count 3, for the
witness of the shift characterization. -/
def shift_wit_store : TreeStore :=
  fun _ => { extra := false, ref_count := 3 }

/-- A spine of one leaf covering bytes 0..4 (padding 2, size 3). -/
def halt_wit_spine : List Tree :=
  [ts_tree_make_leaf 4 2 3]

/-- An edited interior node (has_changes set) over the one-byte token. -/
def reject_wit_tree : Tree :=
  .mk { has_changes := true } [cache_cex_token]

/-- Cursor positioned on that edited node at byte 0. -/
def reject_wit_cursor : ReusableNode :=
  ⟨[⟨[reject_wit_tree], 0⟩], none⟩

/-- The same cursor after one breakdown: its first child exposed. -/
def reject_wit_cursor2 : ReusableNode :=
  ⟨[⟨[cache_cex_token], 0⟩, ⟨[reject_wit_tree], 0⟩], none⟩

/-- An interior node over the 5-byte leaf, satisfying the interior-extent
invariant. -/
def accept_wit_interior : Tree :=
  ts_tree_set_children { symbol := 1 } [ts_tree_make_leaf 4 2 3]

/-- Whether a lex-step outcome committed an external token. -/
def lex_step_commits_external : LexLoopState ⊕ (LexLoopState × LexBreak) → Bool
  | Sum.inr (_, .external _ _ _) => true
  | _ => false

/-! Theorems. -/

/-- The switch on ts_tree_compare at parser.c lines 575-590 selects the
right tree exactly when the comparison returns 1 (a comparison cannot be
-1 and 1 at once). -/
theorem int_cmp_switch (c : Int) :
    (!decide (c = -1) && decide (c = 1)) = decide (c = 1) := by
  by_cases h : c = 1 <;> simp [h]

/-- C6: parser__compare_versions implements exactly the claimed rule: with
exactly one version in error the non-error version wins, Take on a strict
cost win and Prefer otherwise; with equal error status the strictly
cheaper version wins, Take precisely when the weighted cost difference
exceeds MAX_COST_DIFFERENCE and Prefer otherwise; and None when the costs
are equal — for all error statuses, costs and push counts. -/
theorem compare_versions_matches_spec (mcd : Nat) (a b : ErrorStatus) :
    parser__compare_versions mcd a b = compare_versions_spec mcd a b := by
  unfold parser__compare_versions compare_versions_spec
  cases ha : a.is_in_error <;> cases hb : b.is_in_error <;>
    rcases Nat.lt_trichotomy a.cost b.cost with h | h | h <;>
      simp only [ha, hb, Bool.not_true, Bool.not_false, Bool.false_and, Bool.true_and,
        Bool.and_self, Bool.and_false, Bool.and_true, ne_eq, if_true, if_false,
        Bool.false_eq_true, Bool.true_eq_false, not_false_eq_true, not_true_eq_false] <;>
      split_ifs <;> first | rfl | omega

/-- C7: the version list returned by parser__condense_stack never exceeds
MAX_VERSION_COUNT, for every incoming stack and finished tree. -/
theorem condense_version_bound (mcd : Nat) (versions : List StackHead)
    (fc : Option Nat) :
    (parser__condense_stack mcd versions fc).1.length ≤ MAX_VERSION_COUNT := by
  unfold parser__condense_stack
  rcases condense_pass mcd [] true UINT_MAX versions with ⟨r0, ae, mc⟩
  simp only [List.length_take]
  exact Nat.min_le_left MAX_VERSION_COUNT r0.length

/-- C2 counterexample: for two identical trees with equal positive error
cost and equal dynamic precedence the structural compare returns 0, so the
claim requires the existing tree a to be kept (select false); the code
instead takes the new tree because the shared error cost is positive
(parser.c line 573). -/
theorem select_tree_claim_counterexample :
    tie_error_tree.data.error_cost = 1 ∧
    ts_tree_compare tie_error_tree tie_error_tree = 0 ∧
    parser__select_tree (some tie_error_tree) (some tie_error_tree) = true := by
  refine ⟨rfl, ?_, rfl⟩
  simp [tie_error_tree, ts_tree_compare, ts_tree_compare_children]

/-- C2 amended: parser__select_tree picks the smaller error cost, then the
larger dynamic precedence, and on a full tie takes the right tree whenever
the shared error cost is positive; only zero-cost ties fall to the
structural compare, with the left (existing) tree kept on equality. -/
theorem select_tree_characterization (l r : Tree) :
    parser__select_tree (some l) (some r) = select_tree_spec l r := by
  unfold parser__select_tree select_tree_spec
  rcases Nat.lt_trichotomy l.data.error_cost r.data.error_cost with h | h | h
  · simp [h, Nat.lt_asymm h, Nat.ne_of_lt h]
  · rcases lt_trichotomy l.data.dynamic_precedence r.data.dynamic_precedence
      with h2 | h2 | h2
    · simp [h, h2, lt_asymm h2, ne_of_lt h2, int_cmp_switch]
    · simp [h, h2, int_cmp_switch]
    · simp [h, h2, lt_asymm h2, ne_of_gt h2, int_cmp_switch]
  · simp [h, Nat.lt_asymm h, Nat.ne_of_gt h]

/-- C9 counterexample: the lookahead tree is observed at ref_count 2 (it
is also held by the token cache), the stack has a single version, and the
shift must set the extra flag: the code mutates the shared tree in place —
its extra flag changes — instead of copying first. -/
theorem shift_shared_mutation_counterexample :
    (shift_cex_store 0).ref_count = 2 ∧
    (shift_cex_store 0).extra = false ∧
    ((parser__shift shift_cex_store 1 0 100 true).store 0).extra = true := by
  exact ⟨rfl, rfl, rfl⟩

/-- C9 amended: parser__shift copies before changing the extra flag
exactly when more than one stack version is live; with a single version
the flag is written in place on the retained tree regardless of its
reference count, so sharedness (ref_count above 1) does not trigger the
copy. -/
theorem shift_copy_on_write_characterization (store : TreeStore)
    (version_count lookahead new_id : Nat) (extra : Bool)
    (hdiff : (store lookahead).extra ≠ extra) :
    (version_count > 1 → new_id ≠ lookahead →
      ((parser__shift store version_count lookahead new_id extra).store lookahead
          = store lookahead ∧
       ((parser__shift store version_count lookahead new_id extra).store new_id).extra
          = extra ∧
       (parser__shift store version_count lookahead new_id extra).pushed = new_id)) ∧
    (¬ version_count > 1 →
      (((parser__shift store version_count lookahead new_id extra).store lookahead).extra
          = extra ∧
       ((parser__shift store version_count lookahead new_id extra).store lookahead).ref_count
          = (store lookahead).ref_count + 1 ∧
       (parser__shift store version_count lookahead new_id extra).pushed = lookahead)) := by
  have hne : (extra != (store lookahead).extra) = true := by
    simp [bne_iff_ne]
    exact fun hmm => hdiff hmm.symm
  constructor
  · intro hv hid
    simp [parser__shift, hne, hv, ts_tree_make_copy_at, store_set, hid,
      Ne.symm hid]
  · intro hv
    simp [parser__shift, hne, hv, ts_tree_retain_at, store_set]

/-- Witness for the shift characterization at concrete inputs: with two
stack versions the original slot is untouched; with one version the extra
flag is written in place. -/
theorem shift_copy_on_write_characterization_witness :
    ((parser__shift shift_wit_store 2 0 1 true).store 0 = shift_wit_store 0) ∧
    (((parser__shift shift_wit_store 1 0 1 true).store 0).extra = true) :=
  ⟨((shift_copy_on_write_characterization shift_wit_store 2 0 1 true
      (by decide)).1 (by decide) (by decide)).1,
   ((shift_copy_on_write_characterization shift_wit_store 1 0 1 true
      (by decide)).2 (by decide)).1⟩

/-- condense_insert keeps at least one version: the j-loop removes the
examined version only in favour of a surviving earlier one. -/
theorem condense_insert_ne_nil (mcd : Nat) (acc : List StackHead) (v : StackHead) :
    condense_insert mcd acc v ≠ [] := by
  induction acc generalizing v with
  | nil => simp [condense_insert]
  | cons j rest ih =>
    unfold condense_insert
    rcases parser__compare_versions mcd (version_status j) (version_status v) <;>
      rcases ts_stack_can_merge j v <;> simp [ih]

/-- The list produced by condense_pass is empty exactly when both the
accumulator and the live part of the pending versions are empty. -/
theorem condense_pass_ne_nil (mcd : Nat) (pending : List StackHead) :
    ∀ (acc : List StackHead) (ae : Bool) (mc : Nat),
      ((condense_pass mcd acc ae mc pending).1 = [] ↔
        (acc = [] ∧ entry_live pending = [])) := by
  induction pending with
  | nil => intro acc ae mc; simp [condense_pass, entry_live]
  | cons v p ih =>
    intro acc ae mc
    by_cases hv : v.is_halted
    · simp [condense_pass, hv, entry_live, List.filter_cons, ih]
    · simp [condense_pass, hv, entry_live, List.filter_cons, ih,
        condense_insert_ne_nil]

/-- The all-in-error flag accumulated by condense_pass over the versions
that are live on entry. -/
theorem condense_pass_flag (mcd : Nat) (pending : List StackHead) :
    ∀ (acc : List StackHead) (ae : Bool) (mc : Nat),
      (condense_pass mcd acc ae mc pending).2.1 =
        (ae && (entry_live pending).all fun v => (version_status v).is_in_error) := by
  induction pending with
  | nil => intro acc ae mc; simp [condense_pass, entry_live]
  | cons v p ih =>
    intro acc ae mc
    by_cases hv : v.is_halted <;>
      simp [condense_pass, hv, entry_live, List.filter_cons, ih, Bool.and_assoc]

/-- The minimum error cost accumulated by condense_pass over the versions
that are live on entry. -/
theorem condense_pass_min (mcd : Nat) (pending : List StackHead) :
    ∀ (acc : List StackHead) (ae : Bool) (mc : Nat),
      (condense_pass mcd acc ae mc pending).2.2 =
        (entry_live pending).foldl
          (fun m v => if (version_status v).cost < m then (version_status v).cost else m)
          mc := by
  induction pending with
  | nil => intro acc ae mc; simp [condense_pass, entry_live]
  | cons v p ih =>
    intro acc ae mc
    by_cases hv : v.is_halted <;>
      simp [condense_pass, hv, entry_live, List.filter_cons, ih]

/-- A strict lower bound on the running minimum holds exactly when it
holds for the seed and for every element. -/
theorem lt_foldl_min (c : Nat) (l : List StackHead) :
    ∀ m0 : Nat,
      (c < l.foldl
          (fun m v => if (version_status v).cost < m then (version_status v).cost else m)
          m0 ↔
        (c < m0 ∧ ∀ v ∈ l, c < (version_status v).cost)) := by
  induction l with
  | nil => simp
  | cons v p ih =>
    intro m0
    rw [List.foldl_cons, ih]
    by_cases h : (version_status v).cost < m0
    · simp only [if_pos h, List.forall_mem_cons]
      constructor
      · rintro ⟨h1, h2⟩
        exact ⟨Nat.lt_trans h1 h, h1, h2⟩
      · rintro ⟨_, h2, h3⟩
        exact ⟨h2, h3⟩
    · simp only [if_neg h, List.forall_mem_cons]
      constructor
      · rintro ⟨h1, h2⟩
        exact ⟨h1, Nat.lt_of_lt_of_le h1 (Nat.le_of_not_lt h), h2⟩
      · rintro ⟨h1, _, h3⟩
        exact ⟨h1, h3⟩

/-- C5 counterexample: on the seven versions of condense_cex_versions with
a finished tree of error cost 10, condense returns should_halt = false —
the code compares the finished cost against the minimum recorded before
pruning (5, on the version the truncation then deletes) — while the claim
predicts true: a finished tree exists whose cost is strictly below the
cost of every remaining live version (18 and 20). -/
theorem condense_should_halt_counterexample :
    (parser__condense_stack 1600 condense_cex_versions (some 10)).2 = false ∧
    (∀ v ∈ (parser__condense_stack 1600 condense_cex_versions (some 10)).1,
      10 < (version_status v).cost) := by
  constructor
  · rfl
  · decide

/-- C5 amended: should_halt is true exactly when at least one version
survives and every version that was live on entry is in ERROR_STATE, or a
finished tree exists whose error cost is strictly below the 32-bit
sentinel and below the cost of every version that was live on entry —
i.e. the minimum and the all-in-error flag are taken before condense
prunes or truncates, not over the remaining versions. -/
theorem condense_should_halt_characterization (mcd : Nat)
    (versions : List StackHead) (fc : Option Nat)
    (hfc : ∀ c, fc = some c → c < UINT_MAX) :
    ((parser__condense_stack mcd versions fc).2 = true ↔
      ((entry_live versions ≠ [] ∧
        ∀ v ∈ entry_live versions, (version_status v).is_in_error = true) ∨
       (∃ c, fc = some c ∧
        ∀ v ∈ entry_live versions, c < (version_status v).cost))) := by
  have hflag := condense_pass_flag mcd versions [] true UINT_MAX
  have hmin := condense_pass_min mcd versions [] true UINT_MAX
  have hnil := condense_pass_ne_nil mcd versions [] true UINT_MAX
  unfold parser__condense_stack
  rcases hcp : condense_pass mcd [] true UINT_MAX versions with ⟨r0, ae, mc⟩
  rw [hcp] at hflag hmin hnil
  simp only [Bool.true_and] at hflag hmin hnil
  have hlen : (0 < (r0.take MAX_VERSION_COUNT).length) ↔ entry_live versions ≠ [] := by
    rw [List.length_take]
    have h6 : (0:Nat) < MAX_VERSION_COUNT := by decide
    constructor
    · intro h
      have : r0 ≠ [] := by
        intro he
        rw [he] at h
        simp at h
      simp [hnil] at this
      exact this
    · intro h
      have : r0 ≠ [] := by
        intro he
        exact h ((hnil.mp he).2)
      have : 0 < r0.length := List.length_pos.mpr this
      omega
  cases fc with
  | none =>
    simp only [Bool.or_eq_true, Bool.and_eq_true, decide_eq_true_eq, hflag, hlen,
      List.all_eq_true]
    constructor
    · rintro (⟨h1, h2⟩ | h)
      · exact Or.inl ⟨h2, h1⟩
      · exact absurd h (by simp)
    · rintro (⟨h1, h2⟩ | ⟨c, hc, _⟩)
      · exact Or.inl ⟨h2, h1⟩
      · exact absurd hc (by simp)
  | some c =>
    have hcu : c < UINT_MAX := hfc c rfl
    simp only [Bool.or_eq_true, Bool.and_eq_true, decide_eq_true_eq, hflag, hlen,
      List.all_eq_true, hmin, lt_foldl_min, Option.some.injEq]
    constructor
    · rintro (⟨h1, h2⟩ | ⟨_, h⟩)
      · exact Or.inl ⟨h2, h1⟩
      · exact Or.inr ⟨c, rfl, h⟩
    · rintro (⟨h1, h2⟩ | ⟨c2, hc2, h⟩)
      · exact Or.inl ⟨h2, h1⟩
      · cases hc2
        exact Or.inr ⟨hcu, h⟩

/-- Witness for the condense characterization at a concrete input: a
single live error version and a finished tree of cost 0 make should_halt
true. -/
theorem condense_should_halt_characterization_witness :
    (parser__condense_stack 1600 [⟨⟨ERROR_STATE, 7, 0⟩, 0, false⟩] (some 0)).2 = true :=
  (condense_should_halt_characterization 1600 [⟨⟨ERROR_STATE, 7, 0⟩, 0, false⟩]
      (some 0) (by intro c hc; cases hc; decide)).mpr
    (Or.inl (by constructor <;> decide))

/-- C10: at the failing input — a slab whose occupancy bitmap is
0xFFFFFFFF, i.e. slots 0..31 occupied — the 32-bit shift mask for slot 32
wraps to 0, so tree_pool_slab__allocate returns slot 32 without setting
any occupancy bit, and two consecutive ts_tree_pool_allocate calls on the
pool made of that slab both return slot 32 of slab 0: two live
allocations alias the same slot. -/
theorem tree_pool_allocate_alias_at_failing_input :
    slab_mask 32 = 0 ∧
    tree_pool_slab__allocate (U32 - 1) = some (U32 - 1, 32) ∧
    (ts_tree_pool_allocate ⟨[U32 - 1], 0⟩).2 = some (0, 32) ∧
    (ts_tree_pool_allocate (ts_tree_pool_allocate ⟨[U32 - 1], 0⟩).1).2 = some (0, 32) := by
  refine ⟨by decide, ?_, ?_, ?_⟩ <;> rfl

/-- C3 counterexample: lexing from parse state 0 (not the error state,
so error mode is off), the external scanner returns a token that consumed
no bytes, and parser__lex commits it: the produced leaf is an external
token of size 0 — the claim says a zero-length external token produced
outside error mode is not committed. -/
theorem lex_external_empty_token_counterexample :
    (0 == ERROR_STATE) = false ∧
    ((parser__lex lex_cex_env 4 0 0 none).map
      (fun t => (t.data.has_external_tokens, t.data.size_bytes))) =
      some (true, 0) := by
  exact ⟨rfl, rfl⟩

/-- lex_update_lbs only touches last_byte_scanned. -/
theorem lex_update_lbs_lex_mode (s : LexLoopState) (pos : Nat) :
    (lex_update_lbs s pos).lex_mode = s.lex_mode := by
  unfold lex_update_lbs
  split <;> rfl

/-- lex_update_lbs only touches last_byte_scanned. -/
theorem lex_update_lbs_error_mode (s : LexLoopState) (pos : Nat) :
    (lex_update_lbs s pos).error_mode = s.error_mode := by
  unfold lex_update_lbs
  split <;> rfl

/-- C3 amended: when external tokens are valid in the current lex mode and
the external scanner succeeds, the token is committed as an external token
unless the parser is in error mode and the scanner consumed no bytes
(token end at or before the scan start); in particular a zero-length
external token is committed outside error mode and disregarded only in
error mode. -/
theorem lex_external_commit_characterization (env : Env) (le : Option Nat)
    (start : Nat) (s : LexLoopState) (r : ExtScanSuccess)
    (hen : env.enabled_external s.lex_mode.external_lex_state = true)
    (hscan : env.ext_scan s.lex_mode.external_lex_state s.current le = .success r) :
    (parser__lex_step env le start s =
        Sum.inr ({ s with current := r.current_end },
          LexBreak.external s.current
            (if r.end_unknown then r.current_end else r.token_end) r) ↔
      ¬(s.error_mode = true ∧
        (if r.end_unknown then r.current_end else r.token_end) ≤ s.current)) := by
  by_cases hcond : s.error_mode = true ∧
      (if r.end_unknown then r.current_end else r.token_end) ≤ s.current
  · obtain ⟨he, hl⟩ := hcond
    constructor
    · intro h
      exfalso
      have hfalse : lex_step_commits_external (parser__lex_step env le start s) = false := by
        unfold parser__lex_step
        simp only [hen, if_true, hscan, he, hl, decide_True, Bool.and_self,
          Bool.true_and, Bool.and_true, if_true, lex_update_lbs_lex_mode,
          lex_update_lbs_error_mode]
        rcases hil : env.int_lex s.lex_mode.lex_state s.current with r2 | ⟨ts, ce⟩ <;>
          simp only [hil]
        · rfl
        · simp only [he, lex_update_lbs_error_mode, Bool.not_true,
            Bool.false_eq_true, if_false]
          split <;> split <;> first | rfl | (split <;> rfl)
      rw [h] at hfalse
      exact absurd hfalse (by simp [lex_step_commits_external])
    · intro h
      exact absurd ⟨he, hl⟩ h
  · have hb : (s.error_mode &&
        decide ((if r.end_unknown then r.current_end else r.token_end) ≤ s.current)) = false := by
      cases he : s.error_mode
      · rfl
      · have hl : ¬ (if r.end_unknown then r.current_end else r.token_end) ≤ s.current :=
          fun hl => hcond ⟨he, hl⟩
        simp [hl]
    constructor
    · intro _
      exact hcond
    · intro _
      unfold parser__lex_step
      simp only [hen, if_true, hscan, hb, Bool.false_eq_true, if_false]

/-- Witness for the external-commit characterization: from position 0
outside error mode, a zero-consumption external scan is committed. -/
theorem lex_external_commit_characterization_witness :
    parser__lex_step lex_cex_env none 0 lex_wit_state =
      Sum.inr ({ lex_wit_state with current := 0 },
        LexBreak.external 0 0 ⟨0, 0, false, 3, 0⟩) :=
  (lex_external_commit_characterization lex_cex_env none 0 lex_wit_state
      ⟨0, 0, false, 3, 0⟩ rfl rfl).mpr (by decide)

/-- C8 counterexample: the token cache holds a token whose byte index
matches the lookahead position and whose external-token state matches, and
the reusable cursor supplies no node, yet parser__get_lookahead runs the
lexer and returns a freshly lexed token: the cached token fails the
first-leaf reuse check (its recorded lex mode (0,0) differs from the
current state's lex mode (1,1)), and the cache hit is only honoured after
that check. -/
theorem cached_token_counterexample :
    parser__get_cached_token cache_cex 0 none = some cache_cex_token ∧
    ((parser__get_lookahead lookahead_cex_env 3 false 0 none 0 empty_cursor cache_cex).map
      (fun r => r.source)) = some .lexed := by
  exact ⟨rfl, rfl⟩

/-- C8 amended: when the cursor supplies no node and the cache slot
matches the position and external-token state, the cached token is
returned with its reference count incremented and the lexer is not run,
provided the token also passes the first-leaf reuse check for the current
state. -/
theorem cached_token_hit_behavior (env : Env) (fuel : Nat) (amb : Bool)
    (position : Nat) (le : Option Nat) (state : Nat) (rn : ReusableNode)
    (cache : TokenCache) (t : Tree)
    (hrn : rn.frames = [])
    (hfuel : 0 < fuel)
    (hget : parser__get_cached_token cache position le = some t)
    (hreuse : parser__can_reuse_first_leaf env state t
        (env.table_is_reusable state t.data.first_leaf_symbol)
        (env.table_depends_on_lookahead state t.data.first_leaf_symbol) = true) :
    parser__get_lookahead env fuel amb position le state rn cache =
      some { tree := ts_tree_retain t, source := .cached, rn := rn,
             state := state, cache := cache } ∧
    (ts_tree_retain t).data.ref_count = t.data.ref_count + 1 := by
  obtain ⟨f, rfl⟩ : ∃ f, fuel = f + 1 := ⟨fuel - 1, by omega⟩
  have hstep : parser__get_lookahead_step env amb position le state rn =
      .fallthrough rn state := by
    unfold parser__get_lookahead_step
    have : rn.tree? = none := by
      unfold ReusableNode.tree?
      rw [hrn]
    rw [this]
  have hloop : parser__get_lookahead_loop env amb position le (f + 1) state rn =
      some (none, rn, state) := by
    unfold parser__get_lookahead_loop
    rw [hstep]
  unfold parser__get_lookahead
  rw [hloop]
  simp only [hget, hreuse, if_true]
  exact ⟨trivial, rfl⟩

/-- Witness for the cache-hit characterization: with a matching lex mode
the cached token is returned as the lookahead with its reference count
bumped. -/
theorem cached_token_hit_behavior_witness :
    parser__get_lookahead lex_cex_env 1 false 0 none 0 empty_cursor cache_cex =
      some { tree := ts_tree_retain cache_cex_token, source := .cached,
             rn := empty_cursor, state := 0, cache := cache_cex } ∧
    (ts_tree_retain cache_cex_token).data.ref_count =
      cache_cex_token.data.ref_count + 1 :=
  cached_token_hit_behavior lex_cex_env 1 false 0 none 0 empty_cursor cache_cex
    cache_cex_token rfl (by decide) rfl (by decide)

/-- After a successful breakdown the cursor's current node is the first
child of the node it was standing on. -/
theorem breakdown_exposes_first_child (rn rn2 : ReusableNode) (t : Tree)
    (ht : rn.tree? = some t)
    (hbd : reusable_node_breakdown rn = some rn2) :
    rn2.tree? = t.children.head? := by
  rcases rn with ⟨frames, rle⟩
  rcases frames with _ | ⟨⟨ts, b⟩, up⟩
  · simp [ReusableNode.tree?] at ht
  rcases ts with _ | ⟨t0, rest⟩
  · simp [ReusableNode.tree?] at ht
  simp only [ReusableNode.tree?, Option.some.injEq] at ht
  subst ht
  unfold reusable_node_breakdown at hbd
  dsimp only at hbd
  rcases hcc : t0.children with _ | ⟨c, cs⟩ <;> rw [hcc] at hbd
  · simp at hbd
  · simp only [Option.some.injEq] at hbd
    rw [← hbd]
    simp [ReusableNode.tree?, hcc]

/-- C4 counterexample: the cursor stands at the current position with a
matching external-token state, the candidate is rejected — it fails the
language's first-leaf reuse check — and yet the cursor does not descend
and retry: the step pops the leaf and exits the reuse loop to the cache
and lexer. -/
theorem get_lookahead_reject_counterexample :
    reuse_cex_cursor.byte_index = 0 ∧
    ts_tree_external_token_state_eq reuse_cex_cursor.last_external none = true ∧
    parser__can_reuse_first_leaf lookahead_cex_env 0 cache_cex_token
      (lookahead_cex_env.table_is_reusable 0 cache_cex_token.data.first_leaf_symbol)
      (lookahead_cex_env.table_depends_on_lookahead 0 cache_cex_token.data.first_leaf_symbol)
      = false ∧
    (parser__get_lookahead_step lookahead_cex_env false 0 none 0
        reuse_cex_cursor).isFallthroughStep = true ∧
    (parser__get_lookahead_step lookahead_cex_env false 0 none 0
        reuse_cex_cursor).isRetryStep = false := by
  exact ⟨rfl, rfl, rfl, rfl, rfl⟩

/-- C4 amended: for a cursor node at the current position with matching
external-token state, a rejection for has_changes / error node / fragility
/ interior-during-ambiguity makes the cursor break down one level and
retry on the exposed first child, falling back to popping the node and
breaking down the top of the stack when the node is a leaf; a rejection by
the first-leaf reuse check instead pops the leaf and exits the reuse loop
without retrying. -/
theorem get_lookahead_reject_behavior (env : Env) (amb : Bool)
    (position : Nat) (le : Option Nat) (state : Nat) (rn : ReusableNode)
    (t : Tree)
    (ht : rn.tree? = some t)
    (hb : rn.byte_index = position)
    (he : ts_tree_external_token_state_eq rn.last_external le = true) :
    ((t.data.has_changes || t.data.symbol == ts_builtin_sym_error ||
        t.data.fragile_left || t.data.fragile_right ||
        (amb && t.child_count != 0)) = true →
      ((∀ rn2, reusable_node_breakdown rn = some rn2 →
          (parser__get_lookahead_step env amb position le state rn = .retry rn2 state ∧
           rn2.tree? = t.children.head?)) ∧
       (reusable_node_breakdown rn = none →
          parser__get_lookahead_step env amb position le state rn =
            .retry (reusable_node_pop rn) (env.breakdown_state state)))) ∧
    ((t.data.has_changes || t.data.symbol == ts_builtin_sym_error ||
        t.data.fragile_left || t.data.fragile_right ||
        (amb && t.child_count != 0)) = false →
      parser__can_reuse_first_leaf env state t
          (env.table_is_reusable state t.data.first_leaf_symbol)
          (env.table_depends_on_lookahead state t.data.first_leaf_symbol) = false →
      parser__get_lookahead_step env amb position le state rn =
        .fallthrough (reusable_node_pop_leaf rn) state) := by
  constructor
  · intro hrej
    have hstep : parser__get_lookahead_step env amb position le state rn =
        (match reusable_node_breakdown rn with
         | some rn2 => LookaheadStep.retry rn2 state
         | none => LookaheadStep.retry (reusable_node_pop rn) (env.breakdown_state state)) := by
      unfold parser__get_lookahead_step
      simp only [ht, hb, gt_iff_lt, lt_irrefl, if_false, lt_self_iff_false, he,
        Bool.not_true, Bool.false_eq_true, hrej, if_true]
    constructor
    · intro rn2 hbd
      rw [hstep, hbd]
      exact ⟨rfl, breakdown_exposes_first_child rn rn2 t ht hbd⟩
    · intro hbd
      rw [hstep, hbd]
  · intro hrej hcr
    unfold parser__get_lookahead_step
    simp only [ht, hb, gt_iff_lt, lt_irrefl, if_false, lt_self_iff_false, he,
      Bool.not_true, Bool.false_eq_true, hrej, if_false, hcr]

/-- Witness for the rejection behaviour: a cursor on an edited interior
node breaks down and retries on the node's first child. -/
theorem get_lookahead_reject_behavior_witness :
    parser__get_lookahead_step lookahead_cex_env false 0 none 0 reject_wit_cursor =
      .retry reject_wit_cursor2 0 ∧
    reject_wit_cursor2.tree? = reject_wit_tree.children.head? :=
  ((get_lookahead_reject_behavior lookahead_cex_env false 0 none 0
      reject_wit_cursor reject_wit_tree rfl rfl rfl).1 (by decide)).1
    reject_wit_cursor2 rfl

/-- sum_total of the empty list. -/
theorem sum_total_nil : sum_total [] = 0 := rfl

/-- sum_total distributes over cons. -/
theorem sum_total_cons (t : Tree) (ts : List Tree) :
    sum_total (t :: ts) = ts_tree_total_bytes t + sum_total ts := rfl

/-- sum_total distributes over append. -/
theorem sum_total_append (a b : List Tree) :
    sum_total (a ++ b) = sum_total a + sum_total b := by
  induction a with
  | nil => simp [sum_total]
  | cons t ts ih =>
    rw [List.cons_append, sum_total_cons, sum_total_cons, ih]
    omega

/-- ts_tree_set_children makes the node's total extent the total extent of
its children. -/
theorem total_set_children (d : TreeData) (cs : List Tree) :
    ts_tree_total_bytes (ts_tree_set_children d cs) = sum_total cs := by
  cases cs with
  | nil => simp [ts_tree_set_children, ts_tree_total_bytes, Tree.data, sum_total]
  | cons c rest =>
    simp only [ts_tree_set_children, ts_tree_total_bytes, Tree.data, sum_total_cons]
    omega

/-- find_last_non_extra splits its input at a non-extra tree. -/
theorem find_last_non_extra_spec (ts : List Tree) :
    ∀ b c a, find_last_non_extra ts = some (b, c, a) →
      ts = b ++ c :: a ∧ c.data.extra = false := by
  induction ts with
  | nil => intro b c a h; simp [find_last_non_extra] at h
  | cons t rest ih =>
    intro b c a h
    unfold find_last_non_extra at h
    cases hr : find_last_non_extra rest with
    | some triple =>
      rcases triple with ⟨b2, c2, a2⟩
      rw [hr] at h
      simp only [Option.some.injEq, Prod.mk.injEq] at h
      obtain ⟨hb, hc, ha⟩ := h
      obtain ⟨hsplit, hextra⟩ := ih b2 c2 a2 hr
      subst hb hc ha
      exact ⟨by rw [hsplit]; simp, hextra⟩
    | none =>
      rw [hr] at h
      by_cases hx : t.data.extra
      · simp [hx] at h
      · simp only [hx, if_false, Option.some.injEq, Prod.mk.injEq,
          Bool.false_eq_true] at h
        obtain ⟨hb, hc, ha⟩ := h
        subst hb hc ha
        exact ⟨rfl, Bool.eq_false_iff.mpr hx⟩

/-- find_last_non_extra looks at the last match first: a hit in the suffix
is a hit of the whole list with the prefix prepended. -/
theorem find_last_non_extra_append (xs : List Tree) :
    ∀ ys b c a, find_last_non_extra ys = some (b, c, a) →
      find_last_non_extra (xs ++ ys) = some (xs ++ b, c, a) := by
  induction xs with
  | nil => intro ys b c a h; simpa using h
  | cons x rest ih =>
    intro ys b c a h
    rw [List.cons_append]
    unfold find_last_non_extra
    rw [ih ys b c a h]
    simp

/-- Coverage of the accept root: when every non-extra tree in the popped
slice has the extent of its children (the interior-extent invariant, which
the zero-extent empty ERROR node also satisfies), the root built by
parser__accept_root covers exactly the popped trees. -/
theorem accept_root_coverage (trees : List Tree) (root : Tree)
    (hwf : ∀ t ∈ trees, t.data.extra = false →
      ts_tree_total_bytes t = sum_total t.children)
    (hr : parser__accept_root trees = some root) :
    ts_tree_total_bytes root = sum_total trees := by
  unfold parser__accept_root at hr
  by_cases hlen : (trees.length == 1) = true
  · rw [if_pos hlen] at hr
    rcases trees with _ | ⟨x, rest⟩
    · simp at hlen
    · rcases rest with _ | ⟨y, rest2⟩
      · simp only [List.head?] at hr
        cases hr
        rw [sum_total_cons]
        simp [sum_total]
      · simp at hlen
  · rw [if_neg hlen] at hr
    cases hf : find_last_non_extra trees with
    | none => rw [hf] at hr; cases hr
    | some triple =>
      rcases triple with ⟨b, c, a⟩
      rw [hf] at hr
      simp only [Option.some.injEq] at hr
      obtain ⟨hsplit, hextra⟩ := find_last_non_extra_spec trees b c a hf
      have hc : ts_tree_total_bytes c = sum_total c.children :=
        hwf c (by rw [hsplit]; simp) hextra
      rw [← hr, total_set_children, sum_total_append, sum_total_append, hsplit,
        sum_total_append, sum_total_cons]
      omega

/-- C1: every tree the parser returns covers the whole input.  First
conjunct: any root built by parser__accept from a popped slice satisfying
the interior-extent invariant covers exactly the slice, whose extent is
the stack-top position.  Second conjunct: for any version-0 spine and any
input length at or beyond the stack position, parser__halt_parse wraps the
remaining bytes and accepts, returning a tree whose padding plus size is
exactly the input length — including when the spine is arbitrary noise. -/
theorem parser_parse_coverage :
    (∀ (trees : List Tree) (root : Tree),
      (∀ t ∈ trees, t.data.extra = false →
        ts_tree_total_bytes t = sum_total t.children) →
      parser__accept_root trees = some root →
      ts_tree_total_bytes root = sum_total trees) ∧
    (∀ (spine : List Tree) (input_length : Nat),
      ts_stack_top_position spine ≤ input_length →
      ∃ root, parser__halt_parse spine input_length = some root ∧
        ts_tree_total_bytes root = input_length) := by
  constructor
  · exact accept_root_coverage
  · intro spine input_length h
    have hstepeq : parser__halt_parse spine input_length =
        parser__accept_root ((spine ++
          [Tree.mk { (ts_tree_make_error (input_length - ts_stack_top_position spine) 0 0).data
              with visible := false } [],
           ts_tree_make_error_node []]) ++
          [set_tree_extra (ts_tree_make_leaf ts_builtin_sym_end 0 0) true]) := rfl
    rw [hstepeq]
    set F : Tree := Tree.mk
      { (ts_tree_make_error (input_length - ts_stack_top_position spine) 0 0).data
        with visible := false } [] with hF
    set R : Tree := ts_tree_make_error_node [] with hR
    set E : Tree := set_tree_extra (ts_tree_make_leaf ts_builtin_sym_end 0 0) true with hE
    have hbase : find_last_non_extra [R, E] = some ([], R, [E]) := by
      rw [hR, hE]
      rfl
    have hassoc : (spine ++ [F, R]) ++ [E] = (spine ++ [F]) ++ [R, E] := by simp
    have hfind : find_last_non_extra ((spine ++ [F, R]) ++ [E]) =
        some ((spine ++ [F]) ++ [], R, [E]) := by
      rw [hassoc]
      exact find_last_non_extra_append (spine ++ [F]) [R, E] [] R [E] hbase
    have hlen : ((((spine ++ [F, R]) ++ [E]).length == 1)) = false := by
      simp [List.length_append]
    unfold parser__accept_root
    rw [hlen]
    simp only [Bool.false_eq_true, if_false, hfind]
    refine ⟨_, rfl, ?_⟩
    have hRc : R.children = [] := by rw [hR]; rfl
    have hFt : ts_tree_total_bytes F = input_length - ts_stack_top_position spine := by
      rw [hF]
      simp [ts_tree_total_bytes, Tree.data, ts_tree_make_error]
    have hEt : ts_tree_total_bytes E = 0 := by rw [hE]; rfl
    have hsp : ts_stack_top_position spine = sum_total spine := rfl
    rw [total_set_children, hRc]
    simp only [List.append_nil, List.nil_append]
    rw [sum_total_append, sum_total_append, sum_total_cons, sum_total_cons, hFt, hEt,
      sum_total_nil]
    rw [hsp] at h ⊢
    omega

/-- Witness for the coverage theorem: a well-formed interior root is
accepted as-is, and halting at input length 9 over a 5-byte spine yields a
root of total extent 9. -/
theorem parser_parse_coverage_witness :
    ts_tree_total_bytes accept_wit_interior = sum_total [accept_wit_interior] ∧
    (∃ root, parser__halt_parse halt_wit_spine 9 = some root ∧
      ts_tree_total_bytes root = 9) := by
  constructor
  · refine parser_parse_coverage.1 [accept_wit_interior] accept_wit_interior ?_ rfl
    intro t ht _
    rw [List.mem_singleton] at ht
    subst ht
    rfl
  · exact parser_parse_coverage.2 halt_wit_spine 9 (by decide)

end TreeSitter
